/-
Verification of the go-PowerControl core against its specification.

The Go sources are shallowly embedded: Go strings become `List Char`
(Go compares strings bytewise over UTF-8, which coincides with the
code-point lexicographic order on `List Char`), Go maps become
association lists, `time.Now()` becomes an explicit `now : Nat`
argument, and fallible operations return `Option`/`Except`-style
values.  Effects of the external MQTT transport, the filesystem and
the crypto collaborator are passed in as explicit outcome parameters.
-/
import Mathlib

set_option maxHeartbeats 1000000

/-- Go strings, embedded as lists of characters. -/
abbrev Str := List Char

namespace PowerControl

/-! ## Topic codec — src/mqtt/handler.go -/

/-- Helper for `splitSlash`: prepend a character to the first segment of a
split result (the non-separator branch of Go's `strings.Split` loop). -/
def consHead (c : Char) : List Str → List Str
  | [] => [[c]]
  | s :: ss => (c :: s) :: ss

/-- `strings.Split(topic, "/")`: split on the slash separator.  As in Go,
`splitSlash [] = [[]]` (splitting the empty string gives one empty part). -/
def splitSlash : Str → List Str
  | [] => [[]]
  | c :: rest =>
    if c = '/' then [] :: splitSlash rest
    else consHead c (splitSlash rest)

/-- `ParseTopic` (src/mqtt/handler.go): extract device name and outlet number
from an MQTT topic.  Errors are embedded as `none`.  The Go code rejects
fewer than 4 slash-separated parts, requires part 0 to be `"power"` and
part 2 to be `"outlets"`, requires non-empty device and outlet, and
ignores any parts beyond the fourth. -/
def ParseTopic (topic : Str) : Option (Str × Str) :=
  match splitSlash topic with
  | p0 :: p1 :: p2 :: p3 :: _ =>
    if p0 ≠ "power".toList then none
    else if p2 ≠ "outlets".toList then none
    else if p1 = [] ∨ p3 = [] then none
    else some (p1, p3)
  | _ => none

/-- `MakeCommandTopic` (src/mqtt/handler.go): `power/<device>/outlets/<outlet>/set`. -/
def MakeCommandTopic (device outlet : Str) : Str :=
  "power/".toList ++ device ++ "/outlets/".toList ++ outlet ++ "/set".toList

/-- The status-topic shape `power/<device>/outlets/<outlet>`: the command
topic of `MakeCommandTopic` without its trailing `/set` segment (§6 wire
protocol). -/
def makeStatusTopic (device outlet : Str) : Str :=
  "power/".toList ++ device ++ "/outlets/".toList ++ outlet

example : ParseTopic "power/a/outlets/1".toList = some ("a".toList, "1".toList) := by decide
example : ParseTopic "power/a/outlets/1/set".toList = some ("a".toList, "1".toList) := by decide
example : ParseTopic "power/office-strip/1".toList = none := by decide
example : ParseTopic "power//outlets/1".toList = none := by decide

/-- Go's `unicode.IsSpace` on a character: White_Space code points. -/
def goIsSpace (c : Char) : Bool :=
  c = '\t' || c = '\n' || c.val = 11 || c.val = 12 || c = '\r' || c = ' ' ||
  c.val = 0x85 || c.val = 0xA0 || c.val = 0x1680 ||
  (0x2000 ≤ c.val && c.val ≤ 0x200A) || c.val = 0x2028 || c.val = 0x2029 ||
  c.val = 0x202F || c.val = 0x205F || c.val = 0x3000

/-- `strings.TrimSpace`: drop leading and trailing white space. -/
def trimSpace (s : Str) : Str :=
  ((s.dropWhile goIsSpace).reverse.dropWhile goIsSpace).reverse

/-- `strings.ToUpper`, restricted to the simple per-character case mapping. -/
def toUpperStr (s : Str) : Str := s.map Char.toUpper

/-- `strings.ToLower`, restricted to the simple per-character case mapping. -/
def toLowerStr (s : Str) : Str := s.map Char.toLower

/-- `ParsePayload` (src/mqtt/handler.go): trim the payload, then
`"0" → "OFF"`, `"1" → "ON"`, anything else is returned as-is (trimmed). -/
def ParsePayload (payload : Str) : Str :=
  let p := trimSpace payload
  if p = "0".toList then "OFF".toList
  else if p = "1".toList then "ON".toList
  else p

/-- `StatusToPayload` (src/mqtt/handler.go): upper-case the trimmed status,
then `"OFF" → "0"`, `"ON" → "1"`, anything else is returned as-is
(upper-cased and trimmed). -/
def StatusToPayload (status : Str) : Str :=
  let s := toUpperStr (trimSpace status)
  if s = "OFF".toList then "0".toList
  else if s = "ON".toList then "1".toList
  else s

example : ParsePayload "0".toList = "OFF".toList := by decide
example : ParsePayload " 1 ".toList = "ON".toList := by decide
example : StatusToPayload "on".toList = "1".toList := by decide
example : StatusToPayload " hi".toList = "HI".toList := by decide

/-! ## Message log — src/models/message.go -/

/-- `MessageDirection` (src/models/message.go): `"Send"` or `"Recv"`. -/
inductive MessageDirection where
  | sent
  | received
deriving DecidableEq, Repr

/-- `MQTTMessage` (src/models/message.go): one logged MQTT message.
`time.Time` is embedded as a `Nat` tick supplied by the caller. -/
structure MQTTMessage where
  direction : MessageDirection
  topic : Str
  payload : Str
  timestamp : Nat
deriving DecidableEq, Repr

/-- `MessageLog` (src/models/message.go): the message slice (newest first)
and the configured maximum size.  `maxSize` is a Go `int`, embedded as `Int`. -/
structure MessageLog where
  messages : List MQTTMessage
  maxSize : Int
deriving DecidableEq, Repr

/-- `NewMessageLog` (src/models/message.go): non-positive `maxSize`
arguments fall back to the default capacity 1000. -/
def NewMessageLog (maxSize : Int) : MessageLog :=
  if maxSize ≤ 0 then { messages := [], maxSize := 1000 }
  else { messages := [], maxSize := maxSize }

/-- `AddMessage` (src/models/message.go): insert the new message at the
front (newest first), then trim the list to `maxSize` when it exceeds it. -/
def AddMessage (l : MessageLog) (direction : MessageDirection)
    (topic payload : Str) (now : Nat) : MessageLog :=
  let msg : MQTTMessage := ⟨direction, topic, payload, now⟩
  let msgs := msg :: l.messages
  if (msgs.length : Int) > l.maxSize then
    { l with messages := msgs.take l.maxSize.toNat }
  else
    { l with messages := msgs }

/-- `MessageLog.GetAll` (src/models/message.go): a snapshot copy of all
messages, newest first. -/
def MessageLog.GetAll (l : MessageLog) : List MQTTMessage :=
  l.messages

/-- `MessageLog.Clear` (src/models/message.go). -/
def MessageLog.Clear (l : MessageLog) : MessageLog :=
  { l with messages := [] }

/-- `MessageLog.Count` (src/models/message.go). -/
def MessageLog.Count (l : MessageLog) : Nat :=
  l.messages.length

/-- An arbitrary sequence of `AddMessage` calls, for stating properties of
every reachable log state. -/
def runAppends (l : MessageLog)
    (ops : List (MessageDirection × Str × Str × Nat)) : MessageLog :=
  ops.foldl (fun acc op => AddMessage acc op.1 op.2.1 op.2.2.1 op.2.2.2) l

/-! ## Device store — src/models/device.go -/

/-- `DeviceOutlet` (src/models/device.go). -/
structure DeviceOutlet where
  deviceName : Str
  outletNumber : Str
  status : Str
  lastUpdate : Nat
deriving DecidableEq, Repr

/-- `DeviceStore` (src/models/device.go): the Go map keyed by
`"deviceName:outletNumber"` is embedded as an association list. -/
structure DeviceStore where
  devices : List (Str × DeviceOutlet)
deriving DecidableEq, Repr

/-- `NewDeviceStore` (src/models/device.go). -/
def NewDeviceStore : DeviceStore := ⟨[]⟩

/-- `makeKey` (src/models/device.go): `deviceName + ":" + outletNumber`. -/
def makeKey (deviceName outletNumber : Str) : Str :=
  deviceName ++ ":".toList ++ outletNumber

/-- Map update for the association-list embedding of the Go map:
replace the value stored under `key`, or add a fresh entry. -/
def updateAssoc (key : Str) (v : DeviceOutlet) :
    List (Str × DeviceOutlet) → List (Str × DeviceOutlet)
  | [] => [(key, v)]
  | (k, w) :: rest =>
    if k = key then (k, v) :: rest else (k, w) :: updateAssoc key v rest

/-- Map lookup for the association-list embedding of the Go map. -/
def lookupAssoc (key : Str) : List (Str × DeviceOutlet) → Option DeviceOutlet
  | [] => none
  | (k, w) :: rest => if k = key then some w else lookupAssoc key rest

/-- `DeviceStore.Add` (src/models/device.go): stamp `LastUpdate` with the
current time and upsert under `makeKey(deviceName, outletNumber)`. -/
def DeviceStore.Add (s : DeviceStore) (device : DeviceOutlet) (now : Nat) :
    DeviceStore :=
  let device := { device with lastUpdate := now }
  let key := makeKey device.deviceName device.outletNumber
  ⟨updateAssoc key device s.devices⟩

/-- `DeviceStore.Get` (src/models/device.go): the `(value, ok)` pair is
embedded as an `Option`. -/
def DeviceStore.Get (s : DeviceStore) (deviceName outletNumber : Str) :
    Option DeviceOutlet :=
  lookupAssoc (makeKey deviceName outletNumber) s.devices

/-- `DeviceStore.Count` (src/models/device.go). -/
def DeviceStore.Count (s : DeviceStore) : Nat :=
  s.devices.length

/-- `DeviceStore.Clear` (src/models/device.go). -/
def DeviceStore.Clear (_ : DeviceStore) : DeviceStore :=
  ⟨[]⟩

/-- The comparison used by the sorting pass of `GetAll`/`Filter`
(src/models/device.go): ascending lexicographic order on the pair
`(deviceName, outletNumber)` (the Go loop swaps two records exactly when
the earlier one is strictly greater in this order). -/
def recLE (a b : DeviceOutlet) : Prop :=
  toLex (a.deviceName, a.outletNumber) ≤ toLex (b.deviceName, b.outletNumber)

instance : DecidableRel recLE := fun a b =>
  inferInstanceAs (Decidable (toLex (a.deviceName, a.outletNumber) ≤
    toLex (b.deviceName, b.outletNumber)))

instance : IsTotal DeviceOutlet recLE :=
  ⟨fun a b => le_total (toLex (a.deviceName, a.outletNumber))
    (toLex (b.deviceName, b.outletNumber))⟩

instance : IsTrans DeviceOutlet recLE :=
  ⟨fun _ _ _ h1 h2 => le_trans h1 h2⟩

/-- The in-place O(n²) exchange sort of `GetAll`/`Filter`
(src/models/device.go), which orders the collected records ascending by
`(deviceName, outletNumber)`, embedded as a sorting pass by the same
comparison (the spec's design notes fix only the resulting order, not the
algorithm). -/
def sortRecords (l : List DeviceOutlet) : List DeviceOutlet :=
  List.insertionSort recLE l

/-- `DeviceStore.GetAll` (src/models/device.go): collect all records and
sort them by device name, then outlet number. -/
def DeviceStore.GetAll (s : DeviceStore) : List DeviceOutlet :=
  sortRecords (s.devices.map Prod.snd)

/-- `strings.Contains(s, sub)`: `sub` occurs as a contiguous substring. -/
def containsSub (s sub : Str) : Bool :=
  decide (sub <:+: s)

/-- The match predicate of `DeviceStore.Filter` (src/models/device.go):
case-insensitive substring match against device name, outlet number or
status.  `search` is already lower-cased by the caller. -/
def deviceMatches (search : Str) (d : DeviceOutlet) : Bool :=
  containsSub (toLowerStr d.deviceName) search ||
  containsSub (toLowerStr d.outletNumber) search ||
  containsSub (toLowerStr d.status) search

/-- `DeviceStore.Filter` (src/models/device.go): empty search text returns
`GetAll`; otherwise collect the matching records and sort them like
`GetAll` does. -/
def DeviceStore.Filter (s : DeviceStore) (searchText : Str) : List DeviceOutlet :=
  if searchText = [] then s.GetAll
  else
    sortRecords ((s.devices.map Prod.snd).filter
      (deviceMatches (toLowerStr searchText)))

/-! ## MQTT client — src/mqtt/client.go

The paho MQTT session is an external collaborator; the outcome of its
`token.WaitTimeout`/`token.Error` calls is passed in as an explicit
`TokenOutcome` argument. -/

/-- The error results of `Client.Publish` (src/mqtt/client.go):
`"client not initialized"`, `"not connected to broker"`,
`"publish timeout"` and `"publish failed"`. -/
inductive PublishError where
  | clientNotInitialized
  | notConnected
  | publishTimeout
  | publishFailed
deriving DecidableEq, Repr

/-- Outcome of waiting on an external broker token. -/
inductive TokenOutcome where
  | ok
  | timedOut
  | failed
deriving DecidableEq, Repr

/-- `Client` (src/mqtt/client.go): `initialized` embeds `c.client != nil`
(the inner paho handle is created by the first `Connect` call and never
reset to nil), `connected` embeds the `connected` flag. -/
structure Client where
  initialized : Bool
  connected : Bool
deriving DecidableEq, Repr

/-- `NewClient` (src/mqtt/client.go): no inner paho client yet, not
connected. -/
def NewClient : Client := ⟨false, false⟩

/-- `Client.Publish` (src/mqtt/client.go): nil inner client and
disconnected state are rejected before the broker is consulted; otherwise
the result follows the external token outcome. -/
def Client.Publish (c : Client) (_topic _payload : Str) (env : TokenOutcome) :
    Option PublishError :=
  if !c.initialized then some .clientNotInitialized
  else if !c.connected then some .notConnected
  else
    match env with
    | .timedOut => some .publishTimeout
    | .failed => some .publishFailed
    | .ok => none

/-- `Client.Disconnect` (src/mqtt/client.go): clears the `connected` flag;
the inner paho handle is kept (never reset to nil). -/
def Client.Disconnect (c : Client) : Client :=
  { c with connected := false }

/-! ## Application coordinator — src/app/app.go -/

/-- `config.Config` (src/config, file config.go). -/
structure Config where
  username : Str
  passwordHash : Str
  mqttServer : Str
  serverPort : Int
  subscribeString : Str
deriving DecidableEq, Repr

/-- `Config.Validate` (src/config, file config.go): the port must lie in
1..65535; an empty subscribe string is replaced by the default
`"power/#"`.  The in-place mutation is embedded by returning the updated
config, `none` embedding the error. -/
def Config.Validate (c : Config) : Option Config :=
  if c.serverPort < 1 ∨ 65535 < c.serverPort then none
  else if c.subscribeString = [] then
    some { c with subscribeString := "power/#".toList }
  else some c

/-- `App` (src/app/app.go): the coordinator owns the client, the device
store, the message log and the loaded config. -/
structure App where
  client : Client
  deviceStore : DeviceStore
  messageLog : MessageLog
  config : Option Config
deriving DecidableEq, Repr

/-- `NewApp` (src/app/app.go): fresh client, empty stores, message log of
capacity 1000, no config loaded yet. -/
def NewApp : App :=
  { client := NewClient
    deviceStore := NewDeviceStore
    messageLog := NewMessageLog 1000
    config := none }

/-- `App.SendCommand` (src/app/app.go): build the command topic and
payload, publish, and only on success append a Sent entry to the message
log.  The frontend event emission has no effect on the embedded state. -/
def App.SendCommand (a : App) (deviceName outletNumber state : Str)
    (env : TokenOutcome) (now : Nat) : App × Option PublishError :=
  let topic := MakeCommandTopic deviceName outletNumber
  let payload := StatusToPayload state
  match a.client.Publish topic payload env with
  | some e => (a, some e)
  | none =>
    ({ a with messageLog := AddMessage a.messageLog .sent topic payload now },
      none)

/-- `App.handleMQTTMessage` (src/app/app.go): log the raw message first;
when the topic parses, parse the payload and upsert the device store,
otherwise stop after logging. -/
def App.handleMQTTMessage (a : App) (topic payload : Str) (now : Nat) : App :=
  let a1 := { a with messageLog := AddMessage a.messageLog .received topic payload now }
  match ParseTopic topic with
  | none => a1
  | some (device, outlet) =>
    let status := ParsePayload payload
    { a1 with deviceStore := a1.deviceStore.Add ⟨device, outlet, status, 0⟩ now }

/-- The errors `App.SaveSettings` can return (src/app/app.go). -/
inductive SaveError where
  | encryptFailed
  | invalidConfig
  | saveFailed
  | connectFailed
deriving DecidableEq, Repr

/-- Outcome of `connectMQTT` (src/app/app.go), covering `Client.Connect`
followed by `Client.Subscribe` against the external broker:
`earlyError` embeds an error before the inner paho client is created
(empty server or password decryption failure). -/
inductive ConnectOutcome where
  | success
  | earlyError
  | connectFailed
  | subscribeFailed
deriving DecidableEq, Repr

/-- Effect of `connectMQTT` (src/app/app.go) on the client for a given
external outcome: a connect attempt past the early checks creates the
inner paho client; only a successful connect sets the connected flag
(a subscribe failure happens after the flag is set). -/
def connectEffect (c : Client) : ConnectOutcome → Client
  | .success => ⟨true, true⟩
  | .earlyError => c
  | .connectFailed => ⟨true, false⟩
  | .subscribeFailed => ⟨true, true⟩

/-- `App.SaveSettings` (src/app/app.go): build the new config, encrypt the
password (external crypto collaborator, outcome `encryptResult`),
validate, save to disk (external filesystem, outcome `saveOk`); only then
adopt the config, disconnect, clear the device store and reconnect
(external broker, outcome `conn`).  The message log is never touched. -/
def App.SaveSettings (a : App) (username _password server : Str) (port : Int)
    (subscribeString : Str) (encryptResult : Option Str) (saveOk : Bool)
    (conn : ConnectOutcome) : App × Option SaveError :=
  let cfg : Config := ⟨username, [], server, port, subscribeString⟩
  match encryptResult with
  | none => (a, some .encryptFailed)
  | some blob =>
    match Config.Validate { cfg with passwordHash := blob } with
    | none => (a, some .invalidConfig)
    | some cfg =>
      if !saveOk then (a, some .saveFailed)
      else
        let a2 : App :=
          { a with
            config := some cfg
            client := a.client.Disconnect
            deviceStore := a.deviceStore.Clear }
        let a3 : App := { a2 with client := connectEffect a2.client conn }
        match conn with
        | .success => (a3, none)
        | _ => (a3, some .connectFailed)

/-- A concrete store with two records, used to instantiate hypotheses. -/
def sampleStore : DeviceStore :=
  (NewDeviceStore.Add ⟨"lamp".toList, "1".toList, "ON".toList, 0⟩ 1).Add
    ⟨"fan".toList, "2".toList, "OFF".toList, 0⟩ 2

/-- A concrete app state whose client is initialized but disconnected,
with a non-empty device store and message log. -/
def sampleApp : App :=
  { client := ⟨true, false⟩
    deviceStore := NewDeviceStore.Add
      ⟨"office-strip".toList, "1".toList, "ON".toList, 0⟩ 1
    messageLog := AddMessage (NewMessageLog 1000) .sent
      "power/office-strip/outlets/1/set".toList "1".toList 2
    config := none }

/-! ## Properties of the topic codec -/

theorem splitSlash_noSlash (s : Str) (h : '/' ∉ s) : splitSlash s = [s] := by
  induction s with
  | nil => rfl
  | cons c rest ih =>
    simp only [List.mem_cons, not_or] at h
    have hc : ¬ (c = '/') := fun e => h.1 e.symm
    simp [splitSlash, hc, ih h.2, consHead]

theorem splitSlash_append (s t : Str) (h : '/' ∉ s) :
    splitSlash (s ++ '/' :: t) = s :: splitSlash t := by
  induction s with
  | nil => simp [splitSlash]
  | cons c rest ih =>
    simp only [List.mem_cons, not_or] at h
    have hc : ¬ (c = '/') := fun e => h.1 e.symm
    simp [splitSlash, hc, ih h.2, consHead]

/-- C1 (counterexample): a five-segment topic with a trailing `/set`
command-echo segment is accepted by `ParseTopic`, not rejected — the Go
code only rejects topics with fewer than four segments. -/
theorem parseTopic_five_segments_accepted :
    (splitSlash "power/a/outlets/1/set".toList).length = 5 ∧
    ParseTopic "power/a/outlets/1/set".toList = some ("a".toList, "1".toList) := by
  decide

/-- C1 (amended): `ParseTopic` succeeds exactly on topics with at least
four slash-separated segments whose first segment is literally `power`,
whose third is literally `outlets`, and whose second and fourth segments
(the returned device and outlet) are non-empty; any further segments are
ignored. -/
theorem parseTopic_characterization (t d o : Str) :
    ParseTopic t = some (d, o) ↔
      ∃ rest, splitSlash t = "power".toList :: d :: "outlets".toList :: o :: rest ∧
        d ≠ [] ∧ o ≠ [] := by
  unfold ParseTopic
  cases hsp : splitSlash t with
  | nil => simp
  | cons p0 tail0 =>
    cases tail0 with
    | nil => simp
    | cons p1 tail1 =>
      cases tail1 with
      | nil => simp
      | cons p2 tail2 =>
        cases tail2 with
        | nil => simp
        | cons p3 rest =>
          constructor
          · intro h
            replace h :
                (if p0 ≠ "power".toList then none
                 else if p2 ≠ "outlets".toList then none
                 else if p1 = [] ∨ p3 = [] then none
                 else some (p1, p3)) = some (d, o) := h
            split_ifs at h with h0 h2 h13
            rw [Option.some_inj, Prod.mk.injEq] at h
            push_neg at h0 h2 h13
            exact ⟨rest, by simp [h0, h2, h.1, h.2], h.1 ▸ h13.1, h.2 ▸ h13.2⟩
          · rintro ⟨rest2, heq, hd, ho⟩
            simp only [List.cons.injEq] at heq
            obtain ⟨e0, e1, e2, e3, _⟩ := heq
            simp [e0, e1, e2, e3, hd, ho]

/-- C5: for every non-empty device and outlet containing no `/`,
decoding the status-shaped topic `power/<device>/outlets/<outlet>` —
the command topic of `MakeCommandTopic` without its `/set` suffix —
returns exactly `(device, outlet)` with no error. -/
theorem status_topic_decode (d o : Str) (hd : d ≠ []) (ho : o ≠ [])
    (hds : '/' ∉ d) (hos : '/' ∉ o) :
    ParseTopic (makeStatusTopic d o) = some (d, o) ∧
    MakeCommandTopic d o = makeStatusTopic d o ++ "/set".toList := by
  refine ⟨?_, rfl⟩
  have h1 : makeStatusTopic d o =
      "power".toList ++ '/' :: (d ++ '/' :: ("outlets".toList ++ '/' :: o)) := by
    show (("power/".toList ++ d) ++ "/outlets/".toList) ++ o = _
    rw [List.append_assoc, List.append_assoc]
    rfl
  have hsplit : splitSlash (makeStatusTopic d o) =
      ["power".toList, d, "outlets".toList, o] := by
    rw [h1, splitSlash_append _ _ (by decide), splitSlash_append _ _ hds,
      splitSlash_append _ _ (by decide), splitSlash_noSlash _ hos]
  unfold ParseTopic
  rw [hsplit]
  simp [hd, ho]

/-- C5 (witness): the round trip at the concrete identity
`(office-strip, 1)`. -/
theorem status_topic_decode_witness :
    ParseTopic (makeStatusTopic "office-strip".toList "1".toList) =
      some ("office-strip".toList, "1".toList) ∧
    MakeCommandTopic "office-strip".toList "1".toList =
      makeStatusTopic "office-strip".toList "1".toList ++ "/set".toList :=
  status_topic_decode "office-strip".toList "1".toList
    (by decide) (by decide) (by decide) (by decide)

/-- C4 (counterexample): `"on"` is non-empty and differs from `"0"` and
`"1"`, yet `StatusToPayload "on" = "1" ≠ upper(trim "on")`; likewise
`" 0"` differs from `"0"` and `"1"`, yet `ParsePayload " 0" = "OFF" ≠
trim " 0"` — the claimed pass-through fails on strings that only trim or
case-fold into `"0"`/`"1"`/`"ON"`/`"OFF"`. -/
theorem payload_passthrough_counterexample :
    ("on".toList ≠ [] ∧ "on".toList ≠ "0".toList ∧ "on".toList ≠ "1".toList ∧
      StatusToPayload "on".toList = "1".toList ∧
      toUpperStr (trimSpace "on".toList) = "ON".toList ∧
      "1".toList ≠ "ON".toList) ∧
    (" 0".toList ≠ [] ∧ " 0".toList ≠ "0".toList ∧ " 0".toList ≠ "1".toList ∧
      ParsePayload " 0".toList = "OFF".toList ∧
      trimSpace " 0".toList = "0".toList ∧
      "OFF".toList ≠ "0".toList) := by
  decide

/-- C4 (amended): for `p ∈ {"0","1"}` the payload round trip
`StatusToPayload (ParsePayload p) = p` holds; a non-empty string whose
trimmed form is neither `"0"` nor `"1"` decodes to its trimmed form, and
a non-empty string whose upper-cased trimmed form is neither `"ON"` nor
`"OFF"` encodes to that upper-cased trimmed form. -/
theorem payload_codec (p s : Str)
    (hp : p = "0".toList ∨ p = "1".toList) (_hs : s ≠ []) :
    StatusToPayload (ParsePayload p) = p ∧
    (trimSpace s ≠ "0".toList → trimSpace s ≠ "1".toList →
      ParsePayload s = trimSpace s) ∧
    (toUpperStr (trimSpace s) ≠ "ON".toList →
      toUpperStr (trimSpace s) ≠ "OFF".toList →
      StatusToPayload s = toUpperStr (trimSpace s)) := by
  refine ⟨?_, ?_, ?_⟩
  · rcases hp with h | h <;> subst h <;> decide
  · intro h0 h1
    show (if trimSpace s = "0".toList then "OFF".toList
          else if trimSpace s = "1".toList then "ON".toList
          else trimSpace s) = trimSpace s
    rw [if_neg h0, if_neg h1]
  · intro hON hOFF
    show (if toUpperStr (trimSpace s) = "OFF".toList then "0".toList
          else if toUpperStr (trimSpace s) = "ON".toList then "1".toList
          else toUpperStr (trimSpace s)) = toUpperStr (trimSpace s)
    rw [if_neg hOFF, if_neg hON]

/-! ## Properties of the message log -/

theorem addMessage_maxSize (l : MessageLog) (d : MessageDirection)
    (t p : Str) (n : Nat) : (AddMessage l d t p n).maxSize = l.maxSize := by
  unfold AddMessage
  dsimp only
  split <;> rfl

theorem runAppends_cons (l : MessageLog) (op : MessageDirection × Str × Str × Nat)
    (rest : List (MessageDirection × Str × Str × Nat)) :
    runAppends l (op :: rest) =
      runAppends (AddMessage l op.1 op.2.1 op.2.2.1 op.2.2.2) rest := rfl

theorem runAppends_maxSize (ops : List (MessageDirection × Str × Str × Nat))
    (l : MessageLog) : (runAppends l ops).maxSize = l.maxSize := by
  induction ops generalizing l with
  | nil => rfl
  | cons op rest ih => rw [runAppends_cons, ih, addMessage_maxSize]

theorem addMessage_length_le (l : MessageLog) (h0 : 0 < l.maxSize)
    (d : MessageDirection) (t p : Str) (n : Nat) :
    ((AddMessage l d t p n).messages.length : Int) ≤ l.maxSize := by
  unfold AddMessage
  dsimp only
  split
  · next hgt =>
    simp only [List.length_take]
    omega
  · next hle =>
    simp only [List.length_cons] at hle ⊢
    omega

theorem addMessage_messages (l : MessageLog) (h0 : 0 < l.maxSize)
    (d : MessageDirection) (t p : Str) (n : Nat) :
    (AddMessage l d t p n).messages =
      (⟨d, t, p, n⟩ :: l.messages).take l.maxSize.toNat := by
  unfold AddMessage
  dsimp only
  split
  · rfl
  · next hle =>
    simp only [List.length_cons, not_lt] at hle
    exact (List.take_of_length_le (by simp only [List.length_cons]; omega)).symm

theorem runAppends_length_le (ops : List (MessageDirection × Str × Str × Nat))
    (l : MessageLog) (h0 : 0 < l.maxSize)
    (h : (l.messages.length : Int) ≤ l.maxSize) :
    ((runAppends l ops).messages.length : Int) ≤ l.maxSize := by
  induction ops generalizing l with
  | nil => exact h
  | cons op rest ih =>
    rw [runAppends_cons]
    have h1 := addMessage_length_le l h0 op.1 op.2.1 op.2.2.1 op.2.2.2
    have h2 := ih (AddMessage l op.1 op.2.1 op.2.2.1 op.2.2.2)
      (by rw [addMessage_maxSize]; exact h0)
      (by rw [addMessage_maxSize]; exact h1)
    rwa [addMessage_maxSize] at h2

theorem newMessageLog_maxSize_pos (m : Int) : 0 < (NewMessageLog m).maxSize := by
  unfold NewMessageLog
  split <;> dsimp only <;> omega

theorem newMessageLog_messages (m : Int) : (NewMessageLog m).messages = [] := by
  unfold NewMessageLog
  split <;> rfl

/-- C3: after any sequence of appends to a freshly constructed log, the
number of stored messages never exceeds the capacity fixed at
construction (which every append preserves), and each append makes
`GetAll` return the new entry at the head of the previous contents,
truncated to the capacity — i.e. `GetAll` is always newest-first. -/
theorem messageLog_bounded_newest_first (m : Int)
    (ops : List (MessageDirection × Str × Str × Nat)) :
    ((runAppends (NewMessageLog m) ops).GetAll.length : Int) ≤
      (NewMessageLog m).maxSize ∧
    (runAppends (NewMessageLog m) ops).maxSize = (NewMessageLog m).maxSize ∧
    ∀ (d : MessageDirection) (t p : Str) (n : Nat),
      (AddMessage (runAppends (NewMessageLog m) ops) d t p n).GetAll =
        (⟨d, t, p, n⟩ :: (runAppends (NewMessageLog m) ops).GetAll).take
          (NewMessageLog m).maxSize.toNat := by
  have hmax := runAppends_maxSize ops (NewMessageLog m)
  have hpos := newMessageLog_maxSize_pos m
  have hlen := runAppends_length_le ops (NewMessageLog m) hpos
    (by rw [newMessageLog_messages]; simpa using le_of_lt hpos)
  refine ⟨hlen, hmax, fun d t p n => ?_⟩
  show (AddMessage (runAppends (NewMessageLog m) ops) d t p n).messages =
    (⟨d, t, p, n⟩ :: (runAppends (NewMessageLog m) ops).messages).take
      (NewMessageLog m).maxSize.toNat
  rw [← hmax]
  exact addMessage_messages _ (hmax ▸ hpos) d t p n

/-- C10: a non-positive capacity argument to `NewMessageLog` yields the
default fixed capacity 1000; a positive argument is taken as-is. -/
theorem newMessageLog_capacity (m : Int) :
    (m ≤ 0 → (NewMessageLog m).maxSize = 1000) ∧
    (0 < m → (NewMessageLog m).maxSize = m) := by
  unfold NewMessageLog
  constructor <;> intro h
  · rw [if_pos h]
  · rw [if_neg (by omega)]

/-- C10 (witness): concrete capacities -5 and 7. -/
theorem newMessageLog_capacity_witness :
    (NewMessageLog (-5)).maxSize = 1000 ∧ (NewMessageLog 7).maxSize = 7 :=
  ⟨(newMessageLog_capacity (-5)).1 (by decide),
   (newMessageLog_capacity 7).2 (by decide)⟩

/-! ## Properties of the device store -/

theorem lookupAssoc_updateAssoc_self (key : Str) (v : DeviceOutlet)
    (l : List (Str × DeviceOutlet)) :
    lookupAssoc key (updateAssoc key v l) = some v := by
  induction l with
  | nil => simp [updateAssoc, lookupAssoc]
  | cons kw rest ih =>
    obtain ⟨k, w⟩ := kw
    by_cases hk : k = key
    · simp [updateAssoc, lookupAssoc, hk]
    · simp [updateAssoc, lookupAssoc, hk, ih]

theorem updateAssoc_length_of_found (key : Str) (v : DeviceOutlet)
    (l : List (Str × DeviceOutlet)) (h : lookupAssoc key l ≠ none) :
    (updateAssoc key v l).length = l.length := by
  induction l with
  | nil => simp [lookupAssoc] at h
  | cons kw rest ih =>
    obtain ⟨k, w⟩ := kw
    by_cases hk : k = key
    · simp [updateAssoc, hk]
    · simp only [updateAssoc, if_neg hk, List.length_cons]
      rw [ih (by simpa [lookupAssoc, hk] using h)]

/-- C9: the device store key `deviceName + ":" + outletNumber` is not
injective — `("a:1", "2")` and `("a", "1:2")` are distinct identities with
the same key — and whenever two identities share a key, adding a record
for the second replaces the stored record of the first (a `Get` of the
first identity returns the second record, and the store does not grow),
so both records never coexist. -/
theorem makeKey_not_injective :
    (makeKey "a:1".toList "2".toList = makeKey "a".toList "1:2".toList ∧
      ("a:1".toList, "2".toList) ≠ ("a".toList, "1:2".toList)) ∧
    ∀ (s : DeviceStore) (r1 r2 : DeviceOutlet) (t1 t2 : Nat),
      makeKey r1.deviceName r1.outletNumber =
        makeKey r2.deviceName r2.outletNumber →
      ((s.Add r1 t1).Add r2 t2).Get r1.deviceName r1.outletNumber =
          some { r2 with lastUpdate := t2 } ∧
      ((s.Add r1 t1).Add r2 t2).Count = (s.Add r1 t1).Count := by
  refine ⟨⟨by decide, by decide⟩, fun s r1 r2 t1 t2 hkey => ?_⟩
  constructor
  · show lookupAssoc (makeKey r1.deviceName r1.outletNumber)
      (updateAssoc (makeKey r2.deviceName r2.outletNumber) _ _) = _
    rw [hkey]
    exact lookupAssoc_updateAssoc_self _ _ _
  · show (updateAssoc (makeKey r2.deviceName r2.outletNumber) _
      (updateAssoc (makeKey r1.deviceName r1.outletNumber) _ s.devices)).length = _
    rw [← hkey]
    exact updateAssoc_length_of_found _ _ _
      (by rw [lookupAssoc_updateAssoc_self]; exact fun h => Option.noConfusion h)

/-- C9 (witness): the collision at the concrete identities
`("a:1", "2")` and `("a", "1:2")`. -/
theorem makeKey_not_injective_witness :
    ((NewDeviceStore.Add ⟨"a:1".toList, "2".toList, "ON".toList, 0⟩ 1).Add
        ⟨"a".toList, "1:2".toList, "OFF".toList, 0⟩ 2).Get "a:1".toList "2".toList =
      some { (⟨"a".toList, "1:2".toList, "OFF".toList, 0⟩ : DeviceOutlet) with
        lastUpdate := 2 } ∧
    ((NewDeviceStore.Add ⟨"a:1".toList, "2".toList, "ON".toList, 0⟩ 1).Add
        ⟨"a".toList, "1:2".toList, "OFF".toList, 0⟩ 2).Count =
      (NewDeviceStore.Add ⟨"a:1".toList, "2".toList, "ON".toList, 0⟩ 1).Count :=
  makeKey_not_injective.2 NewDeviceStore
    ⟨"a:1".toList, "2".toList, "ON".toList, 0⟩
    ⟨"a".toList, "1:2".toList, "OFF".toList, 0⟩ 1 2 (by decide)

/-- C8: filtering with the empty string is exactly `GetAll`; `GetAll` is a
permutation of the stored records sorted ascending by
`(deviceName, outletNumber)`; and for a non-empty search string `Filter`
is a permutation of exactly those stored records matching the
case-insensitive substring predicate, sorted by the same order. -/
theorem filter_spec (s : DeviceStore) (searchText : Str) :
    s.Filter [] = s.GetAll ∧
    List.Sorted recLE s.GetAll ∧
    s.GetAll.Perm (s.devices.map Prod.snd) ∧
    List.Sorted recLE (s.Filter searchText) ∧
    (searchText ≠ [] →
      (s.Filter searchText).Perm
        ((s.devices.map Prod.snd).filter
          (deviceMatches (toLowerStr searchText)))) := by
  refine ⟨by simp [DeviceStore.Filter], List.sorted_insertionSort recLE _,
    List.perm_insertionSort recLE _, ?_, fun h => ?_⟩
  · unfold DeviceStore.Filter
    split
    · exact List.sorted_insertionSort recLE _
    · exact List.sorted_insertionSort recLE _
  · unfold DeviceStore.Filter
    rw [if_neg h]
    exact List.perm_insertionSort recLE _

/-- C8 (witness): the non-empty-search clause at search string `"n"` on a
concrete two-record store. -/
theorem filter_spec_witness :
    "n".toList ≠ [] ∧
    (sampleStore.Filter "n".toList).Perm
      ((sampleStore.devices.map Prod.snd).filter
        (deviceMatches (toLowerStr "n".toList))) :=
  ⟨by decide, (filter_spec sampleStore "n".toList).2.2.2.2 (by decide)⟩

/-- C4 (witness): the amended statement at `p = "0"`, `s = " x "`. -/
theorem payload_codec_witness :
    StatusToPayload (ParsePayload "0".toList) = "0".toList ∧
    (trimSpace " x ".toList ≠ "0".toList → trimSpace " x ".toList ≠ "1".toList →
      ParsePayload " x ".toList = trimSpace " x ".toList) ∧
    (toUpperStr (trimSpace " x ".toList) ≠ "ON".toList →
      toUpperStr (trimSpace " x ".toList) ≠ "OFF".toList →
      StatusToPayload " x ".toList = toUpperStr (trimSpace " x ".toList)) :=
  payload_codec "0".toList " x ".toList (Or.inl rfl) (by decide)

/-! ## Properties of the client and the application coordinator -/

/-- C2 (counterexample): on a freshly constructed client — reachable in
the app before any `Connect` attempt — the connection state is
Disconnected, yet `Publish` returns the distinct
`"client not initialized"` error, not the `"not connected to broker"`
error the claim names. -/
theorem publish_uninitialized_counterexample :
    NewClient.connected = false ∧
    NewClient.Publish "t".toList "1".toList TokenOutcome.ok =
      some PublishError.clientNotInitialized ∧
    PublishError.clientNotInitialized ≠ PublishError.notConnected := by
  decide

/-- C2 (amended): calling `Publish` while disconnected returns an
immediate error — `notConnected` when the inner client exists,
`clientNotInitialized` otherwise — and `SendCommand` then returns that
error, leaving the whole app state (in particular the message log, with
no Sent entry) unchanged. -/
theorem publish_disconnected_no_log (a : App) (deviceName outletNumber state : Str)
    (env : TokenOutcome) (now : Nat) (h : a.client.connected = false) :
    a.client.Publish (MakeCommandTopic deviceName outletNumber)
        (StatusToPayload state) env =
      some (if a.client.initialized then PublishError.notConnected
            else PublishError.clientNotInitialized) ∧
    (a.SendCommand deviceName outletNumber state env now).1 = a ∧
    (a.SendCommand deviceName outletNumber state env now).1.messageLog =
      a.messageLog ∧
    (a.SendCommand deviceName outletNumber state env now).2 ≠ none := by
  have hpub : a.client.Publish (MakeCommandTopic deviceName outletNumber)
      (StatusToPayload state) env =
      some (if a.client.initialized then PublishError.notConnected
            else PublishError.clientNotInitialized) := by
    cases hinit : a.client.initialized <;>
      simp [Client.Publish, hinit, h]
  have hsend : a.SendCommand deviceName outletNumber state env now =
      (a, some (if a.client.initialized then PublishError.notConnected
                else PublishError.clientNotInitialized)) := by
    simp only [App.SendCommand, hpub]
  refine ⟨hpub, by rw [hsend], by rw [hsend], by rw [hsend]; simp⟩

/-- C2 (witness): the amended statement on a concrete disconnected app. -/
theorem publish_disconnected_no_log_witness :
    sampleApp.client.Publish (MakeCommandTopic "dev".toList "3".toList)
        (StatusToPayload "ON".toList) TokenOutcome.ok =
      some (if sampleApp.client.initialized then PublishError.notConnected
            else PublishError.clientNotInitialized) ∧
    (sampleApp.SendCommand "dev".toList "3".toList "ON".toList
        TokenOutcome.ok 5).1 = sampleApp ∧
    (sampleApp.SendCommand "dev".toList "3".toList "ON".toList
        TokenOutcome.ok 5).1.messageLog = sampleApp.messageLog ∧
    (sampleApp.SendCommand "dev".toList "3".toList "ON".toList
        TokenOutcome.ok 5).2 ≠ none :=
  publish_disconnected_no_log sampleApp "dev".toList "3".toList "ON".toList
    TokenOutcome.ok 5 rfl

theorem addMessage_head (l : MessageLog) (h : 1 ≤ l.maxSize)
    (d : MessageDirection) (t p : Str) (n : Nat) :
    (AddMessage l d t p n).messages.head? = some ⟨d, t, p, n⟩ := by
  unfold AddMessage
  dsimp only
  split
  · cases hn : l.maxSize.toNat with
    | zero => omega
    | succ k => simp [List.take_succ_cons]
  · rfl

/-- C6: when the inbound topic fails to decode, the handler appends
exactly one Received entry to the message log (the new head) and leaves
the device store — and the rest of the app state — completely unchanged. -/
theorem malformed_topic_frame (a : App) (topic payload : Str) (now : Nat)
    (h : ParseTopic topic = none) :
    (a.handleMQTTMessage topic payload now).deviceStore = a.deviceStore ∧
    (a.handleMQTTMessage topic payload now).client = a.client ∧
    (a.handleMQTTMessage topic payload now).messageLog =
      AddMessage a.messageLog .received topic payload now ∧
    (1 ≤ a.messageLog.maxSize →
      (a.handleMQTTMessage topic payload now).messageLog.messages.head? =
        some ⟨.received, topic, payload, now⟩) := by
  have hh : a.handleMQTTMessage topic payload now =
      { a with messageLog := AddMessage a.messageLog .received topic payload now } := by
    simp only [App.handleMQTTMessage, h]
  refine ⟨by rw [hh], by rw [hh], by rw [hh], fun hcap => ?_⟩
  rw [hh]
  exact addMessage_head _ hcap _ _ _ _

/-- C6 (witness): the spec's scenario — malformed topic
`power/office-strip/1` (missing the `outlets` segment) on a concrete app. -/
theorem malformed_topic_frame_witness :
    (sampleApp.handleMQTTMessage "power/office-strip/1".toList "1".toList
        9).deviceStore = sampleApp.deviceStore ∧
    (sampleApp.handleMQTTMessage "power/office-strip/1".toList "1".toList
        9).client = sampleApp.client ∧
    (sampleApp.handleMQTTMessage "power/office-strip/1".toList "1".toList
        9).messageLog =
      AddMessage sampleApp.messageLog .received
        "power/office-strip/1".toList "1".toList 9 ∧
    (sampleApp.handleMQTTMessage "power/office-strip/1".toList "1".toList
        9).messageLog.messages.head? =
      some ⟨.received, "power/office-strip/1".toList, "1".toList, 9⟩ :=
  have h := malformed_topic_frame sampleApp "power/office-strip/1".toList
    "1".toList 9 (by decide)
  ⟨h.1, h.2.1, h.2.2.1, h.2.2.2 (by decide)⟩

/-- C7: `SaveSettings` never touches the message log on any path, and
when the new settings are accepted (password encrypts, port in range,
config file written), the device store is cleared — it holds no records
from before the call — whatever the subsequent connect outcome. -/
theorem saveSettings_frame (a : App) (username password server : Str)
    (port : Int) (sub : Str) (enc : Option Str) (saveOk : Bool)
    (conn : ConnectOutcome) :
    (a.SaveSettings username password server port sub enc saveOk
        conn).1.messageLog = a.messageLog ∧
    (enc ≠ none → 1 ≤ port → port ≤ 65535 → saveOk = true →
      (a.SaveSettings username password server port sub enc saveOk
          conn).1.deviceStore = NewDeviceStore) := by
  constructor
  · simp only [App.SaveSettings]
    split
    · rfl
    · split
      · rfl
      · split
        · rfl
        · split <;> rfl
  · intro henc h1 h2 hsave
    rcases enc with _ | blob
    · exact absurd rfl henc
    · subst hsave
      simp only [App.SaveSettings]
      split
      · next heq =>
        rw [Config.Validate, if_neg (by dsimp only; omega)] at heq
        split at heq <;> exact Option.noConfusion heq
      · next cfg2 heq =>
        split
        · next hso => simp at hso
        · split <;> rfl

/-- C7 (witness): accepted settings on a concrete app with a non-empty
device store and message log. -/
theorem saveSettings_frame_witness :
    (sampleApp.SaveSettings "u".toList "pw".toList "host".toList 1883
        "power/#".toList (some "blob".toList) true
        ConnectOutcome.success).1.messageLog = sampleApp.messageLog ∧
    (sampleApp.SaveSettings "u".toList "pw".toList "host".toList 1883
        "power/#".toList (some "blob".toList) true
        ConnectOutcome.success).1.deviceStore = NewDeviceStore :=
  have h := saveSettings_frame sampleApp "u".toList "pw".toList "host".toList
    1883 "power/#".toList (some "blob".toList) true ConnectOutcome.success
  ⟨h.1, h.2 (by simp) (by decide) (by decide) rfl⟩

end PowerControl
